import Mathlib

/-
Verification of the httptestclient request-builder / response-validation
library against its specification.

The Go source is shallowly embedded:
* `GoValue` models the `any` argument universe used by the template
  expander (`strings` file) and the JSON body setter; `goString` models
  the default `%v` rendering of such a value.
* `expandCore` models `rxDollarEnv.FindAllSubmatchIndex` combined with
  the concatenation loop of `replaceAllStringSubMatchFunc`: the regex
  `\$[a-zA-Z0-9_]+` is scanned left to right, each (maximal, non
  overlapping) match is replaced by the renderer's output and all non
  matching text is kept verbatim.
* `Client` models the builder's state; the failure reporter is modelled
  after the library's own `self.FakeTester` (`Errorf` records the
  failure, `FailNow` returns), which is the observable behaviour the
  repository's tests are written against.  `reported` is the transcript
  of `Errorf` calls, `err` the sticky error field.
-/

namespace HTC

/-- Argument universe for variadic `any` parameters: strings, ints,
bools, values with a `String()` method (rendered through it by `%v`)
and string-keyed maps. -/
inductive GoValue where
  | str (s : String)
  | int (i : Int)
  | bool (b : Bool)
  | stringer (s : String)
  | map (entries : List (String × GoValue))

/-- Insertion of a key into a sorted key list (Go's `fmt` and
`url.Values.Encode` iterate map keys in sorted order). -/
def insertKey (k : String) : List String → List String
  | [] => [k]
  | x :: rest => if k ≤ x then k :: x :: rest else x :: insertKey k rest

/-- Sort a list of keys ascending, as `sort.Strings` does. -/
def sortKeys : List String → List String
  | [] => []
  | k :: rest => insertKey k (sortKeys rest)

/-- First-match association lookup; models indexing a Go map whose
entries are listed with unique keys. -/
def lookupEntry (k : String) : List (String × GoValue) → Option GoValue
  | [] => none
  | (k0, v) :: rest => if k0 = k then some v else lookupEntry k rest

/-- Insert one map entry into a key-sorted entry list. -/
def insertPair (p : String × GoValue) : List (String × GoValue) → List (String × GoValue)
  | [] => [p]
  | q :: rest => if p.1 ≤ q.1 then p :: q :: rest else q :: insertPair p rest

/-- Sort map entries by key ascending (Go's `fmt` prints map keys in
sorted order). -/
def sortPairs : List (String × GoValue) → List (String × GoValue)
  | [] => []
  | p :: rest => insertPair p (sortPairs rest)

theorem sizeOf_insertPair (p : String × GoValue) :
    (l : List (String × GoValue)) → sizeOf (insertPair p l) = 1 + sizeOf p + sizeOf l
  | [] => by simp [insertPair]
  | q :: rest => by
    rw [insertPair]
    split
    · simp
    · simp [sizeOf_insertPair p rest]
      omega

theorem sizeOf_sortPairs :
    (l : List (String × GoValue)) → sizeOf (sortPairs l) = sizeOf l
  | [] => rfl
  | p :: rest => by
    rw [sortPairs, sizeOf_insertPair, sizeOf_sortPairs rest]
    simp

mutual
/-- Default string form of a value, modelling `fmt.Sprintf("%v", x)`:
strings and `Stringer`s render as their text, ints in decimal, bools as
`true`/`false`, maps as `map[k1:v1 k2:v2]` with keys sorted. -/
def goString : GoValue → String
  | .str s => s
  | .int i => toString i
  | .bool b => toString b
  | .stringer s => s
  | .map entries => "map[" ++ goStringEntries (sortPairs entries) ++ "]"
termination_by v => sizeOf v
decreasing_by
  all_goals simp [sizeOf_sortPairs]

/-- Render map entries `k:v` space separated. -/
def goStringEntries : List (String × GoValue) → String
  | [] => ""
  | [(k, v)] => k ++ ":" ++ goString v
  | (k, v) :: q :: rest => k ++ ":" ++ goString v ++ " " ++ goStringEntries (q :: rest)
termination_by l => sizeOf l
decreasing_by
  all_goals simp
  all_goals omega
end

/-- Character class of the capture group of `rxDollarEnv`, the regex
`\$(?P<Key>[a-zA-Z0-9_]+)` (ASCII letters, digits, underscore). -/
def isWordChar (c : Char) : Bool := c.isAlpha || c.isDigit || c = '_'

/-- Decimal value of a digit string. -/
def digitsToNat (l : List Char) : Nat := l.foldl (fun a c => a * 10 + (c.toNat - 48)) 0

/-- Models `strconv.Atoi` on a captured token name.  The charset
`[a-zA-Z0-9_]+` cannot contain a sign, so a successful parse is exactly
a non-empty all-digit string whose value fits in a signed 64-bit int;
larger values make `Atoi` return an `ErrRange` error. -/
def goAtoi (s : String) : Option Nat :=
  if s.data ≠ [] ∧ s.data.all Char.isDigit ∧ digitsToNat s.data ≤ 9223372036854775807 then
    some (digitsToNat s.data)
  else none

theorem dropWhile_length_le (p : Char → Bool) :
    (l : List Char) → (l.dropWhile p).length ≤ l.length
  | [] => Nat.le_refl _
  | c :: rest => by
    rw [List.dropWhile]
    cases p c with
    | true => exact Nat.le_succ_of_le (dropWhile_length_le p rest)
    | false => exact Nat.le_refl _

/-- Core scanner: models `FindAllSubmatchIndex` on `\$[a-zA-Z0-9_]+`
together with the replacement loop of `replaceAllStringSubMatchFunc`.
A `$` followed by a non-empty maximal run of word characters is a
match and is replaced by `render` applied to the captured run; all
other characters are copied verbatim. -/
def expandCore (render : String → String) (l : List Char) : List Char :=
  match l with
  | [] => []
  | c :: rest =>
    if c = '$' ∧ rest.takeWhile isWordChar ≠ [] then
      (render (String.mk (rest.takeWhile isWordChar))).data
        ++ expandCore render (rest.dropWhile isWordChar)
    else c :: expandCore render rest
termination_by l.length
decreasing_by
  · exact Nat.lt_succ_of_le (dropWhile_length_le _ _)
  · exact Nat.lt_succ_of_le (Nat.le_refl _)

/-- True when the scanner would find at least one `$token` match. -/
def hasToken : List Char → Bool
  | [] => false
  | c :: rest => (c == '$' && !(rest.takeWhile isWordChar).isEmpty) || hasToken rest

/-- Per-token renderer of `expandStr`'s closure: numeric names index
the argument list (with a bad-index marker out of range), other names
are looked up in a single map argument, anything else renders the
no-key marker. -/
def renderToken (args : List GoValue) (name : String) : String :=
  match goAtoi name with
  | some i =>
    -- Atoi over `[a-zA-Z0-9_]+` can never yield a negative, so the
    -- source's `i < 0` disjunct is vacuous.
    if i ≥ args.length then "[bad_index:$" ++ toString i ++ "]"
    else goString (args.getD i (GoValue.str ""))
  | none =>
    match args with
    | [GoValue.map m] =>
      (match lookupEntry name m with
       | some v => goString v
       | none => "[no_key:$" ++ name ++ "]")
    | _ => "[no_key:$" ++ name ++ "]"

/-- Reference renderer transcribed from the specification text (§4.3):
a name parsing as a non-negative integer is a positional index, valid
indices render the argument's default string form and out-of-range
indices the bad-index marker; otherwise, when exactly one argument was
supplied and it is a string-keyed mapping, a present key renders its
value and an absent key the no-key marker; if neither condition
applies, the token renders the no-key marker. -/
def renderTokenSpec (args : List GoValue) (name : String) : String :=
  match goAtoi name with
  | some i =>
    if i < args.length then goString (args.getD i (GoValue.str ""))
    else "[bad_index:$" ++ toString i ++ "]"
  | none =>
    if args.length = 1 then
      match args.head? with
      | some (GoValue.map m) =>
        (match lookupEntry name m with
         | some v => goString v
         | none => "[no_key:$" ++ name ++ "]")
      | _ => "[no_key:$" ++ name ++ "]"
    else "[no_key:$" ++ name ++ "]"

/-- Models `expandStr`: expand `$name` tokens in `msg` with the
closure's rules over `args`. -/
def expandStr (msg : String) (args : List GoValue) : String :=
  String.mk (expandCore (renderToken args) msg.data)

/-- Reference expansion following the specification's words: same token
scan, spec-side renderer. -/
def expandStrSpec (msg : String) (args : List GoValue) : String :=
  String.mk (expandCore (renderTokenSpec args) msg.data)

theorem expandCore_ext (r1 r2 : String → String) (h : ∀ s, r1 s = r2 s) (l : List Char) :
    expandCore r1 l = expandCore r2 l := by
  induction l using expandCore.induct r1 with
  | case1 => rw [expandCore, expandCore]
  | case2 c rest hc ih =>
    rw [expandCore, expandCore, if_pos hc, if_pos hc, ih, h]
  | case3 c rest hc ih =>
    rw [expandCore, expandCore, if_neg hc, if_neg hc, ih]

theorem expandCore_id (r : String → String) (l : List Char) (h : hasToken l = false) :
    expandCore r l = l := by
  induction l using expandCore.induct r with
  | case1 => rw [expandCore]
  | case2 c rest hc ih =>
    exfalso
    rw [hasToken] at h
    simp [hc.1, List.isEmpty_iff, hc.2] at h
  | case3 c rest hc ih =>
    rw [hasToken] at h
    simp only [Bool.or_eq_false_iff] at h
    rw [expandCore, if_neg hc, ih h.2]

theorem renderToken_eq_spec (args : List GoValue) (name : String) :
    renderToken args name = renderTokenSpec args name := by
  cases hA : goAtoi name with
  | some i =>
    by_cases hi : i < args.length
    · simp [renderToken, renderTokenSpec, hA, hi, Nat.not_le.mpr hi]
    · simp [renderToken, renderTokenSpec, hA, hi, Nat.le_of_not_lt hi]
  | none =>
    rcases args with _ | ⟨a, _ | ⟨b, rest⟩⟩
    · simp [renderToken, renderTokenSpec, hA]
    · cases a <;> simp [renderToken, renderTokenSpec, hA]
    · simp [renderToken, renderTokenSpec, hA]

/-- C9: `expandStr` equals the reference substitution semantics of the
specification for every template and argument list, and a template
without tokens (the empty template included) is returned unchanged. -/
theorem c9_expandStr_matches_spec :
    (∀ (msg : String) (args : List GoValue), expandStr msg args = expandStrSpec msg args) ∧
    (∀ (msg : String) (args : List GoValue),
      hasToken msg.data = false → expandStr msg args = msg) := by
  constructor
  · intro msg args
    exact congrArg String.mk (expandCore_ext _ _ (renderToken_eq_spec args) msg.data)
  · intro msg args h
    rw [expandStr, expandCore_id _ _ h]

/-- Witness for C9: the refinement at a concrete template and argument
list, and identity on a token-free template. -/
theorem c9_expandStr_matches_spec_witness :
    expandStr "a $0 b $name" [GoValue.int 7] = expandStrSpec "a $0 b $name" [GoValue.int 7] ∧
    expandStr "no change" [] = "no change" :=
  ⟨c9_expandStr_matches_spec.1 "a $0 b $name" [GoValue.int 7],
   c9_expandStr_matches_spec.2 "no change" [] (by decide)⟩

/-- RFC 7230 token characters, the class Go's `net/http` accepts for
method names and `net/textproto` accepts for header field names. -/
def isTchar (c : Char) : Bool :=
  c.isAlpha || c.isDigit ||
    c = '!' || c = '#' || c = '$' || c = '%' || c = '&' || c = '\x27' || c = '*' ||
    c = '+' || c = '-' || c = '.' || c = '^' || c = '_' || c = '\x60' || c = '|' || c = '~'

/-- Case normalisation of `textproto.CanonicalMIMEHeaderKey`: uppercase
at the start and after each hyphen, lowercase elsewhere. -/
def canonicalCase : Bool → List Char → List Char
  | _, [] => []
  | up, c :: rest => (if up then c.toUpper else c.toLower) :: canonicalCase (c = '-') rest

/-- Models `textproto.CanonicalMIMEHeaderKey`: keys containing an
invalid byte are returned unchanged, otherwise canonical-cased. -/
def canonicalMIMEHeaderKey (s : String) : String :=
  if s.data.all isTchar then String.mk (canonicalCase true s.data) else s

/-- Update-or-append on an association list; models assignment into a
Go map (`http.Header` / `url.Values`). -/
def setAssoc (h : List (String × List String)) (k : String) (vs : List String) :
    List (String × List String) :=
  match h with
  | [] => [(k, vs)]
  | (k0, v0) :: rest => if k0 = k then (k, vs) :: rest else (k0, v0) :: setAssoc rest k vs

/-- Lookup on an association list; models reading a Go map. -/
def getAssoc (h : List (String × List String)) (k : String) : Option (List String) :=
  match h with
  | [] => none
  | (k0, v0) :: rest => if k0 = k then some v0 else getAssoc rest k

/-- Models `http.Header.Set`: replace all values of the canonical key. -/
def headerSet (h : List (String × List String)) (k v : String) : List (String × List String) :=
  setAssoc h (canonicalMIMEHeaderKey k) [v]

/-- Models `http.Header.Add`: append one value under the canonical key. -/
def headerAdd (h : List (String × List String)) (k v : String) : List (String × List String) :=
  let ck := canonicalMIMEHeaderKey k
  match getAssoc h ck with
  | some vs => setAssoc h ck (vs ++ [v])
  | none => setAssoc h ck [v]

/-- Models `http.Header.Get`: first value of the canonical key, or the
empty string. -/
def headerGet (h : List (String × List String)) (k : String) : String :=
  match getAssoc h (canonicalMIMEHeaderKey k) with
  | some (v :: _) => v
  | _ => ""

/-- Uppercase hex digit of a nibble. -/
def hexDigitU (n : Nat) : Char := if n < 10 then Char.ofNat (48 + n) else Char.ofNat (55 + n)

/-- Lowercase hex digit of a nibble. -/
def hexDigitL (n : Nat) : Char := if n < 10 then Char.ofNat (48 + n) else Char.ofNat (87 + n)

/-- UTF-8 byte sequence of a character, as Go strings store it. -/
def utf8Bytes (c : Char) : List Nat :=
  let n := c.toNat
  if n < 0x80 then [n]
  else if n < 0x800 then [0xC0 + n / 0x40, 0x80 + n % 0x40]
  else if n < 0x10000 then [0xE0 + n / 0x1000, 0x80 + (n / 0x40) % 0x40, 0x80 + n % 0x40]
  else [0xF0 + n / 0x40000, 0x80 + (n / 0x1000) % 0x40, 0x80 + (n / 0x40) % 0x40, 0x80 + n % 0x40]

/-- Characters `url.QueryEscape` leaves unescaped. -/
def isUnreservedQueryChar (c : Char) : Bool :=
  c.isAlpha || c.isDigit || c = '-' || c = '_' || c = '.' || c = '~'

/-- Models `url.QueryEscape`: unreserved characters pass through, space
becomes `+`, every other byte becomes `%XX`. -/
def queryEscape (s : String) : String :=
  String.join (s.data.map fun c =>
    if isUnreservedQueryChar c then String.mk [c]
    else if c = ' ' then "+"
    else String.join ((utf8Bytes c).map fun b =>
      String.mk ['%', hexDigitU (b / 16), hexDigitU (b % 16)]))

/-- Models `url.Values.Encode`: keys sorted ascending, each value as
`escape(k)=escape(v)`, pairs joined with `&`. -/
def formEncode (form : List (String × List String)) : String :=
  String.intercalate "&"
    (((sortKeys (form.map Prod.fst)).map fun k =>
      match getAssoc form k with
      | some vs => vs.map fun v => queryEscape k ++ "=" ++ queryEscape v
      | none => []).flatten)

/-- One JSON-escaped character, as `encoding/json` (with its default
HTML escaping) produces it. -/
def jsonEscape (c : Char) : String :=
  if c = '"' then "\\\""
  else if c = '\\' then "\\\\"
  else if c = '\n' then "\\n"
  else if c = '\r' then "\\r"
  else if c = '\t' then "\\t"
  else if c = '<' then "\\u003c"
  else if c = '>' then "\\u003e"
  else if c = '&' then "\\u0026"
  else if c.toNat < 32 then "\\u00" ++ String.mk [hexDigitL (c.toNat / 16), hexDigitL (c.toNat % 16)]
  else String.mk [c]

/-- JSON string literal for `s`. -/
def jsonQuote (s : String) : String :=
  "\"" ++ String.join (s.data.map jsonEscape) ++ "\""

mutual
/-- Models `json.Marshal` on the embedded value universe (map keys are
marshalled in sorted order, as Go does; a value whose only feature is a
`String()` method marshals as an empty object).  `json.Marshal` cannot
fail on values of this universe, so the marshal-error path of
`BodyJSON` is unreachable here. -/
def jsonMarshal : GoValue → String
  | .str s => jsonQuote s
  | .int i => toString i
  | .bool b => toString b
  | .stringer _ => "\x7b\x7d"
  | .map entries => "\x7b" ++ jsonMarshalEntries (sortPairs entries) ++ "\x7d"
termination_by v => sizeOf v
decreasing_by
  all_goals simp [sizeOf_sortPairs]

/-- Render sorted map entries `"k":v` comma separated. -/
def jsonMarshalEntries : List (String × GoValue) → String
  | [] => ""
  | [(k, v)] => jsonQuote k ++ ":" ++ jsonMarshal v
  | (k, v) :: q :: rest => jsonQuote k ++ ":" ++ jsonMarshal v ++ "," ++ jsonMarshalEntries (q :: rest)
termination_by l => sizeOf l
decreasing_by
  all_goals simp
  all_goals omega
end

/-- Single quotes around a string, as the `'%s'` verbs of the failure
formats produce. -/
def squote (s : String) : String := "\x27" ++ s ++ "\x27"

/-- One reported failure, a constructor per `failNow`/`hasError` call
site of `client.go`, carrying the format arguments. -/
inductive Failure where
  | statusMisuse (status : Int)
  | oddFormArgs (n : Nat)
  | nilPayload
  | requestError (errText : String)
  | redirectMismatch (expected actual : String)
  | redirectMissing (expected : String)
  | unexpectedFailureStatus (status : Int)
  | statusMismatch (expected actual : Int)
  | assertionNotMet
deriving DecidableEq, Repr

/-- Exact text passed to the reporter for each failure, the result of
the `fmt` format at the corresponding call site. -/
def Failure.message : Failure → String
  | .statusMisuse s => "misuse of ExpectedStatusCode(" ++ toString s ++ "), use ExpectRedirectTo instead"
  | .oddFormArgs n => "Incorrect number of parameters " ++ toString n ++ " items, missed pair"
  | .nilPayload => "payload to send is nil"
  | .requestError e => "Expected no error, got " ++ e
  | .redirectMismatch e a => "expected to redirect path " ++ squote e ++ ", actual path " ++ squote a
  | .redirectMissing e => "expected to redirect path " ++ squote e ++ " but no redirection happened"
  | .unexpectedFailureStatus s => "expected success, got " ++ toString s
  | .statusMismatch e a => "expected " ++ toString e ++ ", got " ++ toString a
  | .assertionNotMet => "ASSERTION NOT MET"

/-- A Go `error` value as stored in the builder's `err` field: the
error built by `failNow`'s `fmt.Errorf`, the `ErrNilBodyJSON` sentinel,
or a transport-level error rendered to text. -/
inductive GoError where
  | fromFailure (f : Failure)
  | errNilBodyJSON
  | transport (errText : String)
deriving DecidableEq, Repr

/-- `DefaultContentType` constant. -/
def DefaultContentType : String := "application/json"

/-- `UserAgent` constant. -/
def UserAgent : String := "test-http-request"

/-- Builder state of `httptestclient.Client`.

The failure reporter (`t`) is modelled after the library's own
`self.FakeTester`: `Errorf` appends the failure to `reported` and
`FailNow` returns, which is the observable behaviour the repository's
self tests rely on (with a real `*testing.T`, `FailNow` would stop the
goroutine instead).  `isFakeTester` records whether `t` is the self
test reporter.  The `context` field is omitted: it only flows into
`NewRequestWithContext` and influences none of the modelled behaviour
(transport errors such as cancellation are outside the modelled
exchange). -/
structure Client where
  method : String
  url : String
  header : List (String × List String)
  body : Option String
  form : List (String × List String)
  expectedStatus : Int
  expectRedirectPath : String
  err : Option GoError
  reported : List Failure
  isFakeTester : Bool
deriving DecidableEq, Repr

/-- Models `failNow`: `c.err = fmt.Errorf(format, args...)`, then
`t.Errorf` records the message and `t.FailNow` returns. -/
def failNow (c : Client) (f : Failure) : Client :=
  { c with err := some (.fromFailure f), reported := c.reported ++ [f] }

/-- Models `hasError` on a non-nil error: `c.err` is first set to the
incoming error and then immediately overwritten by `failNow`'s
`fmt.Errorf("Expected no error, got %v", err)`. -/
def hasErrorSet (c : Client) (errText : String) : Client :=
  failNow c (.requestError errText)

/-- Models `New`: default method GET, path `/`, seeded `Accept` and
`User-Agent` headers, background context, no expectations. -/
def New (isFakeTester : Bool) : Client :=
  { method := "GET"
    url := "/"
    header := headerSet (headerSet [] "Accept" "application/json") "User-Agent" UserAgent
    body := none
    form := []
    expectedStatus := 0
    expectRedirectPath := ""
    err := none
    reported := []
    isFakeTester := isFakeTester }

/-- Models `ExpectedStatusCode`: a 3xx argument is a misuse failure and
returns before storing; anything else is stored. -/
def Client.ExpectedStatusCode (c : Client) (status : Int) : Client :=
  if 300 ≤ status ∧ status < 400 then failNow c (.statusMisuse status)
  else { c with expectedStatus := status }

/-- Models `ExpectRedirectTo`. -/
def Client.ExpectRedirectTo (c : Client) (path : String) : Client :=
  { c with expectRedirectPath := path }

/-- Models `Method`. -/
def Client.Method (c : Client) (method : String) : Client :=
  { c with method := method }

/-- Models `URL`; the `fmt.Sprintf` formatting of the template with its
arguments happens before the stored value is assigned, so the model
takes the already-formatted string. -/
def Client.URL (c : Client) (url : String) : Client :=
  { c with url := url }

/-- Models `Header`: `Set` the first value (replacing any existing
values of that name), then `Add` each further value. -/
def Client.Header (c : Client) (name value : String) (moreValues : List String) : Client :=
  { c with header := moreValues.foldl (fun h v => headerAdd h name v) (headerSet c.header name value) }

/-- Models `ClearHeaders`. -/
def Client.ClearHeaders (c : Client) : Client :=
  { c with header := [] }

/-- Models `BodyBytes`/`BodyString` (a byte slice is its string of
bytes here). -/
def Client.BodyBytes (c : Client) (body : String) : Client :=
  { c with body := some body }

/-- Models `FormData`.  The result's second component is true when the
call panics: with an odd argument count the guard reports the failure
but does not return, and the pairing loop then evaluates `args[i+1]`
with `i+1 = len(args)`, an out-of-range index.  Pairs before the panic
point are added to the form; the body re-encoding line is never
reached on panic. -/
def Client.FormData (c : Client) (args : List String) : Client × Bool :=
  let c1 := if args.length % 2 ≠ 0 then failNow c (.oddFormArgs args.length) else c
  let rec pairsOf : List String → List (String × String) × Bool
    | [] => ([], false)
    | [_] => ([], true)
    | k :: v :: rest => let (ps, pa) := pairsOf rest; ((k, v) :: ps, pa)
  let (ps, panicked) := pairsOf args
  let form1 := ps.foldl (fun f (kv : String × String) =>
    match getAssoc f kv.1 with
    | some vs => setAssoc f kv.1 (vs ++ [kv.2])
    | none => setAssoc f kv.1 [kv.2]) c1.form
  if panicked then ({ c1 with form := form1 }, true)
  else ({ c1 with form := form1, body := some (formEncode form1) }, false)

/-- Models `BodyJSON`: a nil payload reports `payload to send is nil`
and records the `ErrNilBodyJSON` sentinel as the sticky error before
any serialization; otherwise the payload is marshalled and assigned as
the body. -/
def Client.BodyJSON (c : Client) (payload : Option GoValue) : Client :=
  match payload with
  | none => { failNow c .nilPayload with err := some .errNilBodyJSON }
  | some v => c.BodyBytes (jsonMarshal v)

/-- Models `strings.HasPrefix(path, "/")`: the first character is a
slash. -/
def startsWithSlash (s : String) : Bool :=
  match s.data with
  | c :: _ => c = '/'
  | [] => false

/-- Models `joinPath`. -/
def joinPath (root path : String) : String :=
  if !startsWithSlash path then root ++ "/" ++ path else root ++ path

/-- The transport-level request produced by `buildRequest`; the parsed
URL is kept as the string it was built from. -/
structure Request where
  method : String
  url : String
  header : List (String × List String)
  body : Option String
deriving DecidableEq, Repr

/-- Models `http.NewRequestWithContext`'s validation: an empty method
is replaced by GET, then the method must consist of token characters.
URL parsing, whose failures none of the builder's inputs can reach, is
not modelled as a failure source. -/
def newRequest (method url : String) (body : Option String) : Option Request :=
  let m := if method = "" then "GET" else method
  if m.data.all isTchar then some { method := m, url := url, header := [], body := body }
  else none

/-- Error text of the invalid-method error of `http.NewRequestWithContext`. -/
def invalidMethodText (method : String) : String :=
  "net/http: invalid method \"" ++ method ++ "\""

/-- The step of `buildRequest` where a non-empty form together with an
empty method forces the method to POST. -/
def formDefaultMethod (c : Client) : Client :=
  if c.form.length > 0 ∧ c.method = "" then c.Method "POST" else c

/-- The tail of `buildRequest` once the transport request exists: the
builder's header map is assigned to the request (Go assigns the same
map, so the `Content-Type` writes below remain visible through the
builder, which the returned client reflects), then `Content-Type` is
forced to the form encoding when form data is present, else defaulted
when a body exists and none was set. -/
def finishRequest (c : Client) (req : Request) : Option Request × Client :=
  let req1 := { req with header := c.header }
  let req2 :=
    if c.form.length > 0 then
      { req1 with header := headerSet req1.header "Content-Type" "application/x-www-form-urlencoded" }
    else if c.body.isSome ∧ headerGet req1.header "Content-Type" = "" then
      { req1 with header := headerSet req1.header "Content-Type" DefaultContentType }
    else req1
  (some req2, { c with header := req2.header })

/-- Models `buildRequest`: nothing happens when the sticky error is
set; otherwise the path is joined onto the base, the form/method
default is applied, the transport request is created (a creation error
goes through `hasError`) and finished with the header logic. -/
def buildRequest (c : Client) (baseURL : String) : Option Request × Client :=
  if c.err.isSome then (none, c)
  else
    match newRequest (formDefaultMethod c).method (joinPath baseURL c.url)
        (formDefaultMethod c).body with
    | none =>
      (none, hasErrorSet (formDefaultMethod c) (invalidMethodText (formDefaultMethod c).method))
    | some req => finishRequest (formDefaultMethod c) req

/-- Models `BuildRequest`: `buildRequest` with an empty base. -/
def Client.BuildRequest (c : Client) : Option Request × Client :=
  buildRequest c ""

/-- The observable server interaction of one dispatch: the target paths
of the redirect hops the transport offers to `CheckRedirect`, in
order, and the status code of the final response when the chain is
followed to its end.  Network-level failures (unreachable server,
cancelled context) are outside the modelled exchange. -/
structure Exchange where
  hops : List String
  finalStatus : Int
deriving DecidableEq, Repr

/-- Models the redirect policy `Do` installs when the server's client
has none (an `httptest.Server`'s client has none): each hop's path is
compared with the expected redirect path; a mismatch reports the
failure and returns an error, aborting the chain (the third component
is the error text the transport hands back); a match records that a
redirect occurred and lets the chain continue. -/
def checkRedirectLoop (c : Client) (wasRedirected : Bool) :
    List String → Client × Bool × Option String
  | [] => (c, wasRedirected, none)
  | p :: rest =>
    if p ≠ c.expectRedirectPath then
      (failNow c (.redirectMismatch c.expectRedirectPath p), wasRedirected,
        some (Failure.redirectMismatch c.expectRedirectPath p).message)
    else checkRedirectLoop c true rest

/-- The exchange-and-validate tail of `Do`: run the exchange under the
installed redirect policy (a redirect abort surfaces as the transport
error `hasError` reports; the `url.Error` wrapper the transport puts
around the abort error is abstracted to the inner text), then check
the redirect expectation, then validate the status, and under
self-test reach of the success path report `ASSERTION NOT MET`. -/
def afterBuild (c1 : Client) (ex : Exchange) : Option Int × Client :=
  match checkRedirectLoop c1 false ex.hops with
  | (c2, _, some errText) => (none, hasErrorSet c2 errText)
  | (c2, wasRedirected, none) =>
    if c2.expectRedirectPath ≠ "" ∧ wasRedirected = false then
      (none, failNow c2 (.redirectMissing c2.expectRedirectPath))
    else if c2.expectedStatus = 0 ∧ 400 ≤ ex.finalStatus then
      (none, failNow c2 (.unexpectedFailureStatus ex.finalStatus))
    else if 0 < c2.expectedStatus ∧ c2.expectedStatus ≠ ex.finalStatus then
      (none, failNow c2 (.statusMismatch c2.expectedStatus ex.finalStatus))
    else
      (some ex.finalStatus, if c2.isFakeTester then failNow c2 .assertionNotMet else c2)

/-- Models `Do`: build against the server's base URL (no request means
the failure was already reported and `Do` returns nil), otherwise run
the dispatch-and-validate tail on the post-build builder state.  The
response is abstracted to its status code. -/
def Do (c : Client) (serverURL : String) (ex : Exchange) : Option Int × Client :=
  if (buildRequest c serverURL).fst.isSome then afterBuild (buildRequest c serverURL).snd ex
  else (none, (buildRequest c serverURL).snd)

/-- Length of the run of slashes a string begins with. -/
def leadSlashes (s : String) : Nat := (s.data.takeWhile (fun c => c = '/')).length

/-- Length of the run of slashes a string ends with. -/
def trailSlashes (s : String) : Nat := (s.data.reverse.takeWhile (fun c => c = '/')).length

/-- Number of consecutive slashes around the junction of `joinPath`'s
result: the root's trailing run, plus the inserted separator, plus the
path's leading run. -/
def seamSlashes (root path : String) : Nat :=
  trailSlashes root + (if startsWithSlash path then 0 else 1) + leadSlashes path

theorem leadSlashes_pos (s : String) : startsWithSlash s = true ↔ 1 ≤ leadSlashes s := by
  rcases s with ⟨_ | ⟨c, rest⟩⟩
  · simp [startsWithSlash, leadSlashes]
  · by_cases hc : c = '/'
    · simp [startsWithSlash, leadSlashes, List.takeWhile_cons, hc]
    · simp [startsWithSlash, leadSlashes, List.takeWhile_cons, hc]

/-- C2 counterexample: with the sticky error already set, `Header`
still mutates the header map (it is not a no-op) and a 3xx call to
`ExpectedStatusCode` replaces the stored first error, refuting that
every subsequent builder operation is an error-preserving no-op. -/
theorem c2_sticky_error_counterexample :
    Client.Header { New false with err := some (.fromFailure .nilPayload) } "x" "y" [] ≠
      { New false with err := some (.fromFailure .nilPayload) } ∧
    (Client.ExpectedStatusCode { New false with err := some (.fromFailure .nilPayload) } 305).err ≠
      some (GoError.fromFailure .nilPayload) := by
  decide

/-- C2 (amended): once the builder's `err` field is non-nil, building
(`buildRequest` with any base URL, and `BuildRequest`) returns no
request and leaves the builder untouched; the builder's mutators,
however, do not consult `err` and still mutate their fields, and a
later reported failure overwrites the stored error. -/
theorem c2_sticky_error_amended (c : Client) (baseURL : String) (h : c.err ≠ none) :
    buildRequest c baseURL = (none, c) ∧ c.BuildRequest = (none, c) := by
  have hs : c.err.isSome := Option.isSome_iff_ne_none.mpr h
  exact ⟨by rw [buildRequest, if_pos hs], by rw [Client.BuildRequest, buildRequest, if_pos hs]⟩

/-- Witness for the amended C2 at a concrete errored builder. -/
theorem c2_sticky_error_amended_witness :
    buildRequest { New false with err := some (.fromFailure .nilPayload) } "http://srv" =
      (none, { New false with err := some (.fromFailure .nilPayload) }) :=
  (c2_sticky_error_amended { New false with err := some (.fromFailure .nilPayload) }
    "http://srv" (by decide)).1

/-- C6: a 300–399 argument to `ExpectedStatusCode` reports the misuse
failure (with the quoted message) and leaves the stored expectation
unchanged; any other argument is stored as the expectation. -/
theorem c6_expected_status_guard (c : Client) (s : Int) :
    (300 ≤ s ∧ s < 400 →
      Client.ExpectedStatusCode c s = failNow c (.statusMisuse s) ∧
      (Client.ExpectedStatusCode c s).expectedStatus = c.expectedStatus ∧
      Failure.statusMisuse s ∈ (Client.ExpectedStatusCode c s).reported ∧
      (Failure.statusMisuse s).message =
        "misuse of ExpectedStatusCode(" ++ toString s ++ "), use ExpectRedirectTo instead") ∧
    (¬(300 ≤ s ∧ s < 400) →
      Client.ExpectedStatusCode c s = { c with expectedStatus := s }) := by
  constructor
  · intro h
    refine ⟨by rw [Client.ExpectedStatusCode, if_pos h], ?_, ?_, rfl⟩
    · rw [Client.ExpectedStatusCode, if_pos h]
      simp [failNow]
    · rw [Client.ExpectedStatusCode, if_pos h]
      simp [failNow]
  · intro h
    rw [Client.ExpectedStatusCode, if_neg h]

/-- Witness for C6 at concrete codes 303 (guarded) and 418 (stored). -/
theorem c6_expected_status_guard_witness :
    (Client.ExpectedStatusCode (New false) 303).expectedStatus = 0 ∧
    (Client.ExpectedStatusCode (New false) 418).expectedStatus = 418 ∧
    Failure.statusMisuse 303 ∈ (Client.ExpectedStatusCode (New false) 303).reported ∧
    (Failure.statusMisuse 303).message =
      "misuse of ExpectedStatusCode(303), use ExpectRedirectTo instead" := by
  have H := c6_expected_status_guard (New false) 303
  have H2 := c6_expected_status_guard (New false) 418
  refine ⟨?_, ?_, (H.1 (by decide)).2.2.1, by decide⟩
  · rw [(H.1 (by decide)).2.1]
    rfl
  · rw [H2.2 (by decide)]

/-- C7: `BodyJSON` with a nil payload reports `payload to send is nil`,
records the sticky `ErrNilBodyJSON` error, leaves the body untouched
(no serialization is attempted), and any subsequent build returns no
request. -/
theorem c7_nil_payload_body_json (c : Client) :
    (c.BodyJSON none).reported = c.reported ++ [Failure.nilPayload] ∧
    Failure.nilPayload.message = "payload to send is nil" ∧
    (c.BodyJSON none).err = some GoError.errNilBodyJSON ∧
    (c.BodyJSON none).body = c.body ∧
    (∀ baseURL, buildRequest (c.BodyJSON none) baseURL = (none, c.BodyJSON none)) ∧
    (c.BodyJSON none).BuildRequest = (none, c.BodyJSON none) := by
  refine ⟨rfl, rfl, rfl, rfl, fun baseURL => ?_, ?_⟩
  · rw [buildRequest, if_pos (by rw [Client.BodyJSON]; rfl)]
  · rw [Client.BuildRequest, buildRequest, if_pos (by rw [Client.BodyJSON]; rfl)]

/-- C8: with an odd argument list `FormData` reports the odd-count
failure with the quoted message, but the pairing loop then reads one
past the end of the argument list — an out-of-range index (panic),
refuting the claimed bound safety; an even argument list completes
without the out-of-range access. -/
theorem c8_formdata_odd_reads_out_of_range :
    ((New false).FormData ["only-one"]).snd = true ∧
    ((New false).FormData ["only-one"]).fst.reported = [Failure.oddFormArgs 1] ∧
    (Failure.oddFormArgs 1).message = "Incorrect number of parameters 1 items, missed pair" ∧
    ((New false).FormData ["a", "b"]).snd = false := by
  decide

/-- C10 counterexample: a root ending in a slash, or a path starting
with a double slash, makes `joinPath` produce a doubled slash at the
join point, refuting the universal no-double-slash part of the claim. -/
theorem c10_join_counterexample :
    joinPath "a/" "/b" = "a//b" ∧ seamSlashes "a/" "/b" = 2 ∧
    joinPath "a" "//b" = "a//b" ∧ seamSlashes "a" "//b" = 2 := by
  decide

/-- C10 (amended): `joinPath` inserts exactly one slash when the path
lacks a leading slash and none otherwise; the join point never has
zero slashes; and whenever the root does not end in a slash and the
path has at most one leading slash, the join point has exactly one
slash (a doubled slash arises only from a root ending in `/` or a path
starting with `//`). -/
theorem c10_join_amended (root path : String) :
    (startsWithSlash path = false → joinPath root path = root ++ "/" ++ path) ∧
    (startsWithSlash path = true → joinPath root path = root ++ path) ∧
    1 ≤ seamSlashes root path ∧
    (trailSlashes root = 0 → leadSlashes path ≤ 1 → seamSlashes root path = 1) := by
  have hlead : startsWithSlash path = false → leadSlashes path = 0 := by
    intro hsw
    by_contra hne
    rw [(leadSlashes_pos path).mpr (Nat.one_le_iff_ne_zero.mpr hne)] at hsw
    simp at hsw
  refine ⟨fun h => by simp [joinPath, h], fun h => by simp [joinPath, h], ?_, ?_⟩
  · rw [seamSlashes]
    cases hsw : startsWithSlash path with
    | true => have := (leadSlashes_pos path).mp hsw; simp [hsw]; omega
    | false => simp [hsw]; omega
  · intro h1 h2
    rw [seamSlashes, h1]
    cases hsw : startsWithSlash path with
    | true => have := (leadSlashes_pos path).mp hsw; simp [hsw]; omega
    | false => simp [hsw, hlead hsw]

/-- Witness for the amended C10 at a concrete base URL and path. -/
theorem c10_join_amended_witness :
    joinPath "http://srv" "p" = "http://srv" ++ "/" ++ "p" ∧
    seamSlashes "http://srv" "/p" = 1 :=
  ⟨(c10_join_amended "http://srv" "p").1 (by decide),
   (c10_join_amended "http://srv" "/p").2.2.2 (by decide) (by decide)⟩

theorem formDefaultMethod_fields (c : Client) :
    (formDefaultMethod c).err = c.err ∧
    (formDefaultMethod c).expectedStatus = c.expectedStatus ∧
    (formDefaultMethod c).expectRedirectPath = c.expectRedirectPath ∧
    (formDefaultMethod c).reported = c.reported ∧
    (formDefaultMethod c).isFakeTester = c.isFakeTester := by
  rw [formDefaultMethod]
  split <;> simp [Client.Method]

theorem buildRequest_fields (c : Client) (b : String)
    (h : (buildRequest c b).fst.isSome) :
    (buildRequest c b).snd.err = none ∧
    (buildRequest c b).snd.expectedStatus = c.expectedStatus ∧
    (buildRequest c b).snd.expectRedirectPath = c.expectRedirectPath ∧
    (buildRequest c b).snd.reported = c.reported ∧
    (buildRequest c b).snd.isFakeTester = c.isFakeTester := by
  by_cases he : c.err.isSome
  · rw [buildRequest, if_pos he] at h
    simp at h
  · have herr : c.err = none := Option.not_isSome_iff_eq_none.mp he
    have hf := formDefaultMethod_fields c
    rw [buildRequest, if_neg he] at h ⊢
    cases hnr : newRequest (formDefaultMethod c).method (joinPath b c.url)
        (formDefaultMethod c).body with
    | none =>
      rw [hnr] at h
      simp at h
    | some req =>
      exact ⟨hf.1.trans herr, hf.2.1, hf.2.2.1, hf.2.2.2.1, hf.2.2.2.2⟩

theorem checkRedirectLoop_all_match (c : Client) (hops : List String)
    (h : ∀ p ∈ hops, p = c.expectRedirectPath) :
    ∀ w, checkRedirectLoop c w hops = (c, w || !hops.isEmpty, none) := by
  induction hops with
  | nil => intro w; simp [checkRedirectLoop]
  | cons p rest ih =>
    intro w
    have hp : p = c.expectRedirectPath := h p (List.mem_cons_self _ _)
    rw [checkRedirectLoop, if_neg (by simp [hp])]
    rw [ih (fun q hq => h q (List.mem_cons_of_mem _ hq)) true]
    simp

theorem checkRedirectLoop_abort (c : Client) (pre : List String) (bad : String)
    (rest : List String)
    (hpre : ∀ p ∈ pre, p = c.expectRedirectPath) (hbad : bad ≠ c.expectRedirectPath) :
    ∀ w, checkRedirectLoop c w (pre ++ bad :: rest) =
      (failNow c (.redirectMismatch c.expectRedirectPath bad), w || !pre.isEmpty,
        some (Failure.redirectMismatch c.expectRedirectPath bad).message) := by
  induction pre with
  | nil =>
    intro w
    simp only [List.nil_append]
    rw [checkRedirectLoop, if_pos hbad]
    simp
  | cons p pr ih =>
    intro w
    have hp : p = c.expectRedirectPath := hpre p (List.mem_cons_self _ _)
    rw [List.cons_append, checkRedirectLoop, if_neg (by simp [hp])]
    rw [ih (fun q hq => hpre q (List.mem_cons_of_mem _ hq)) true]
    simp

theorem Do_build_some (c : Client) (u : String) (ex : Exchange)
    (h : (buildRequest c u).fst.isSome) :
    Do c u ex = afterBuild (buildRequest c u).snd ex := by
  rw [Do, if_pos h]

theorem afterBuild_no_abort (c2 : Client) (ex : Exchange) (w : Bool)
    (h : checkRedirectLoop c2 false ex.hops = (c2, w, none)) :
    afterBuild c2 ex =
      (if c2.expectRedirectPath ≠ "" ∧ w = false then
        (none, failNow c2 (.redirectMissing c2.expectRedirectPath))
      else if c2.expectedStatus = 0 ∧ 400 ≤ ex.finalStatus then
        (none, failNow c2 (.unexpectedFailureStatus ex.finalStatus))
      else if 0 < c2.expectedStatus ∧ c2.expectedStatus ≠ ex.finalStatus then
        (none, failNow c2 (.statusMismatch c2.expectedStatus ex.finalStatus))
      else
        (some ex.finalStatus, if c2.isFakeTester then failNow c2 .assertionNotMet else c2)) := by
  rw [afterBuild, h]

theorem afterBuild_abort (c2 : Client) (ex : Exchange) (c3 : Client) (w : Bool) (m : String)
    (h : checkRedirectLoop c2 false ex.hops = (c3, w, some m)) :
    afterBuild c2 ex = (none, hasErrorSet c3 m) := by
  rw [afterBuild, h]

theorem Do_all_match (c : Client) (u : String) (ex : Exchange)
    (hb : (buildRequest c u).fst.isSome)
    (hhops : ∀ p ∈ ex.hops, p = c.expectRedirectPath)
    (hneed : c.expectRedirectPath ≠ "" → ex.hops ≠ []) :
    Do c u ex =
      (if (buildRequest c u).snd.expectedStatus = 0 ∧ 400 ≤ ex.finalStatus then
        (none, failNow (buildRequest c u).snd (.unexpectedFailureStatus ex.finalStatus))
      else if 0 < (buildRequest c u).snd.expectedStatus ∧
          (buildRequest c u).snd.expectedStatus ≠ ex.finalStatus then
        (none, failNow (buildRequest c u).snd
          (.statusMismatch (buildRequest c u).snd.expectedStatus ex.finalStatus))
      else
        (some ex.finalStatus,
          if (buildRequest c u).snd.isFakeTester then
            failNow (buildRequest c u).snd .assertionNotMet
          else (buildRequest c u).snd)) := by
  have hf := buildRequest_fields c u hb
  have hred := checkRedirectLoop_all_match (buildRequest c u).snd ex.hops
    (by rw [hf.2.2.1]; exact hhops) false
  rw [Do_build_some c u ex hb, afterBuild_no_abort _ ex _ hred]
  rw [if_neg ?hcond]
  case hcond =>
    rintro ⟨hne, hw⟩
    rw [hf.2.2.1] at hne
    have hne2 : ex.hops.isEmpty = false := by
      cases hhe : ex.hops.isEmpty with
      | false => rfl
      | true => exact absurd (List.isEmpty_iff.mp hhe) (hneed hne)
    rw [hne2] at hw
    simp at hw

/-- C1: with the redirect phase passing, a dispatch with no explicit
expected status succeeds on every status in [200,400) and fails with
the reported `expected success, got %d` (and a nil return) on any
status >= 400; a dispatch with a positive explicit expected status
succeeds exactly when the response status equals it, and on mismatch
reports `expected %d, got %d` and returns nil. -/
theorem c1_status_validation (c : Client) (u : String) (ex : Exchange)
    (hb : (buildRequest c u).fst.isSome)
    (hhops : ∀ p ∈ ex.hops, p = c.expectRedirectPath)
    (hneed : c.expectRedirectPath ≠ "" → ex.hops ≠ []) :
    (c.expectedStatus = 0 → 200 ≤ ex.finalStatus → ex.finalStatus < 400 →
      (Do c u ex).fst = some ex.finalStatus) ∧
    (c.expectedStatus = 0 → 400 ≤ ex.finalStatus →
      (Do c u ex).fst = none ∧
      Failure.unexpectedFailureStatus ex.finalStatus ∈ (Do c u ex).snd.reported ∧
      (Failure.unexpectedFailureStatus ex.finalStatus).message =
        "expected success, got " ++ toString ex.finalStatus) ∧
    (0 < c.expectedStatus →
      ((Do c u ex).fst.isSome ↔ ex.finalStatus = c.expectedStatus) ∧
      (ex.finalStatus = c.expectedStatus → (Do c u ex).fst = some ex.finalStatus) ∧
      (ex.finalStatus ≠ c.expectedStatus →
        (Do c u ex).fst = none ∧
        Failure.statusMismatch c.expectedStatus ex.finalStatus ∈ (Do c u ex).snd.reported ∧
        (Failure.statusMismatch c.expectedStatus ex.finalStatus).message =
          "expected " ++ toString c.expectedStatus ++ ", got " ++ toString ex.finalStatus)) := by
  have hf := buildRequest_fields c u hb
  have hD := Do_all_match c u ex hb hhops hneed
  refine ⟨?_, ?_, ?_⟩
  · intro h0 h200 h400
    rw [hD, if_neg (by rw [hf.2.1]; omega), if_neg (by rw [hf.2.1]; omega)]
  · intro h0 h400
    rw [hD, if_pos (by rw [hf.2.1]; exact ⟨h0, h400⟩)]
    exact ⟨rfl, by simp [failNow], rfl⟩
  · intro hpos
    by_cases hs : ex.finalStatus = c.expectedStatus
    · rw [hD, if_neg (by rw [hf.2.1]; omega), if_neg (by rw [hf.2.1]; omega)]
      exact ⟨by simp [hs], fun _ => rfl, fun hne => absurd hs hne⟩
    · rw [hD, if_neg (by rw [hf.2.1]; omega),
        if_pos (by rw [hf.2.1]; exact ⟨hpos, fun he => hs he.symm⟩)]
      refine ⟨by simp [hs], fun he => absurd he hs, fun _ => ⟨rfl, ?_, rfl⟩⟩
      rw [hf.2.1] at hD ⊢
      simp [failNow, hf.2.2.2.1]

/-- Witness for C1: a default dispatch succeeds on 200, and an explicit
expectation of 418 fails on 500. -/
theorem c1_status_validation_witness :
    (Do (New false) "http://srv" ⟨[], 200⟩).fst = some 200 ∧
    (Do ((New false).ExpectedStatusCode 418) "http://srv" ⟨[], 500⟩).fst = none := by
  constructor
  · exact (c1_status_validation (New false) "http://srv" ⟨[], 200⟩ (by decide)
      (by intro p hp; cases hp) (fun h => absurd rfl h)).1 rfl (by decide) (by decide)
  · exact ((c1_status_validation ((New false).ExpectedStatusCode 418) "http://srv" ⟨[], 500⟩
      (by decide) (by intro p hp; cases hp) (fun h => absurd rfl h)).2.2
      (by decide)).2.2 (by decide) |>.1

/-- C3: with a non-empty expected redirect path, a mismatching hop
reports the mismatch, aborts the chain (later hops and the final
status are irrelevant) and yields nil; a chain of matching hops
records the redirect and completes; and an exchange with no redirect
at all reports `expected to redirect path '%s' but no redirection
happened` and yields nil. -/
theorem c3_redirect_expectation (c : Client) (u : String)
    (hne : c.expectRedirectPath ≠ "") :
    (∀ pre bad rest s s2, (buildRequest c u).fst.isSome →
      (∀ p ∈ pre, p = c.expectRedirectPath) → bad ≠ c.expectRedirectPath →
      (Do c u ⟨pre ++ bad :: rest, s⟩).fst = none ∧
      Failure.redirectMismatch c.expectRedirectPath bad ∈
        (Do c u ⟨pre ++ bad :: rest, s⟩).snd.reported ∧
      Do c u ⟨pre ++ bad :: rest, s⟩ = Do c u ⟨pre ++ [bad], s2⟩) ∧
    (∀ hops s, (buildRequest c u).fst.isSome →
      hops ≠ [] → (∀ p ∈ hops, p = c.expectRedirectPath) →
      ¬(c.expectedStatus = 0 ∧ 400 ≤ s) →
      ¬(0 < c.expectedStatus ∧ c.expectedStatus ≠ s) →
      c.isFakeTester = false →
      Do c u ⟨hops, s⟩ = (some s, (buildRequest c u).snd)) ∧
    (∀ s, (buildRequest c u).fst.isSome →
      (Do c u ⟨[], s⟩).fst = none ∧
      Failure.redirectMissing c.expectRedirectPath ∈ (Do c u ⟨[], s⟩).snd.reported ∧
      (Failure.redirectMissing c.expectRedirectPath).message =
        "expected to redirect path " ++ squote c.expectRedirectPath ++
          " but no redirection happened") := by
  refine ⟨?_, ?_, ?_⟩
  · intro pre bad rest s s2 hb hpre hbad
    have hf := buildRequest_fields c u hb
    have hpre2 : ∀ p ∈ pre, p = (buildRequest c u).snd.expectRedirectPath := by
      rw [hf.2.2.1]; exact hpre
    have hbad2 : bad ≠ (buildRequest c u).snd.expectRedirectPath := by
      rw [hf.2.2.1]; exact hbad
    have h1 := checkRedirectLoop_abort (buildRequest c u).snd pre bad rest hpre2 hbad2 false
    have h2 := checkRedirectLoop_abort (buildRequest c u).snd pre bad [] hpre2 hbad2 false
    rw [Do_build_some c u _ hb, afterBuild_abort _ _ _ _ _ h1]
    refine ⟨rfl, ?_, ?_⟩
    · rw [hf.2.2.1]
      simp [hasErrorSet, failNow]
    · rw [Do_build_some c u _ hb, afterBuild_abort _ _ _ _ _ h2]
  · intro hops s hb hnonempty hhops h400 hmm hfake
    have hf := buildRequest_fields c u hb
    rw [Do_all_match c u ⟨hops, s⟩ hb hhops (fun _ => hnonempty),
      if_neg (by rw [hf.2.1]; exact h400), if_neg (by rw [hf.2.1]; exact hmm)]
    rw [hf.2.2.2.2, hfake]
    rfl
  · intro s hb
    have hf := buildRequest_fields c u hb
    have hne2 : (buildRequest c u).snd.expectRedirectPath ≠ "" := by
      rw [hf.2.2.1]; exact hne
    have hred : checkRedirectLoop (buildRequest c u).snd false ([] : List String) =
        ((buildRequest c u).snd, false, none) := rfl
    rw [Do_build_some c u _ hb, afterBuild_no_abort _ ⟨[], s⟩ false hred,
      if_pos ⟨hne2, rfl⟩]
    refine ⟨rfl, ?_, rfl⟩
    rw [hf.2.2.1]
    simp [failNow]

/-- Witness for C3: expecting `/redirected`, a hop to `/wrong` fails, a
single matching hop succeeds with the final status, and no hop at all
fails. -/
theorem c3_redirect_expectation_witness :
    (Do ((New false).ExpectRedirectTo "/redirected") "http://srv" ⟨["/wrong"], 200⟩).fst =
      none ∧
    (Do ((New false).ExpectRedirectTo "/redirected") "http://srv" ⟨["/redirected"], 200⟩).fst =
      some 200 ∧
    (Do ((New false).ExpectRedirectTo "/redirected") "http://srv" ⟨[], 200⟩).fst = none := by
  have H := c3_redirect_expectation ((New false).ExpectRedirectTo "/redirected") "http://srv"
    (by decide)
  refine ⟨?_, ?_, ?_⟩
  · exact (H.1 [] "/wrong" [] 200 200 (by decide) (by intro p hp; cases hp) (by decide)).1
  · rw [H.2.1 ["/redirected"] 200 (by decide) (by decide) (by decide) (by decide)
      (by decide) (by decide)]
  · exact (H.2.2 200 (by decide)).1

/-- C4 (divergence exhibit): the code imposes no redirect hop limit —
a chain of 11 matching hops completes with the final status instead of
failing with a `RedirectLoop`; and in the endless-redirect scenario of
the repository's own test, the dispatch fails at the very first hop
with the redirect-mismatch message (the installed policy compares
against the empty expected path) rather than with any loop message
naming hop 11. -/
theorem c4_no_redirect_hop_limit :
    (Do ((New false).ExpectRedirectTo "/x") "http://srv"
      ⟨List.replicate 11 "/x", 200⟩).fst = some 200 ∧
    (Do (New false) "http://srv" ⟨["/redirected/1"], 200⟩).fst = none ∧
    (Do (New false) "http://srv" ⟨["/redirected/1"], 200⟩).snd.reported.map Failure.message =
      ["expected to redirect path \x27\x27, actual path \x27/redirected/1\x27",
       "Expected no error, got expected to redirect path \x27\x27, actual path \x27/redirected/1\x27"] := by
  decide

/-- C5: with no redirect expectation configured (empty expected path)
and the installed policy in place, any redirect hop to a non-empty
path aborts the dispatch with the reported mismatch — a server
redirect is never silently followed. -/
theorem c5_unexpected_redirect_fails (c : Client) (u p : String) (rest : List String) (s : Int)
    (hb : (buildRequest c u).fst.isSome) (he : c.expectRedirectPath = "") (hp : p ≠ "") :
    (Do c u ⟨p :: rest, s⟩).fst = none ∧
    Failure.redirectMismatch "" p ∈ (Do c u ⟨p :: rest, s⟩).snd.reported ∧
    (Failure.redirectMismatch "" p).message =
      "expected to redirect path " ++ squote "" ++ ", actual path " ++ squote p := by
  have hf := buildRequest_fields c u hb
  have he2 : (buildRequest c u).snd.expectRedirectPath = "" := by rw [hf.2.2.1]; exact he
  have hp2 : p ≠ (buildRequest c u).snd.expectRedirectPath := by rw [he2]; exact hp
  have h1 := checkRedirectLoop_abort (buildRequest c u).snd [] p rest
    (by intro q hq; cases hq) hp2 false
  rw [List.nil_append] at h1
  rw [Do_build_some c u _ hb, afterBuild_abort _ _ _ _ _ h1]
  refine ⟨rfl, ?_, rfl⟩
  rw [he2]
  simp [hasErrorSet, failNow]

/-- Witness for C5: a fresh client dispatched against a server that
redirects to `/redirected/1` fails with the mismatch against the empty
expected path. -/
theorem c5_unexpected_redirect_fails_witness :
    (Do (New false) "http://srv" ⟨["/redirected/1"], 200⟩).fst = none ∧
    (Failure.redirectMismatch "" "/redirected/1").message =
      "expected to redirect path \x27\x27, actual path \x27/redirected/1\x27" :=
  ⟨(c5_unexpected_redirect_fails (New false) "http://srv" "/redirected/1" [] 200
      (by decide) rfl (by decide)).1, by decide⟩

end HTC
